import Mathlib

/-!
Shallow embedding of src/main.py (the mimotion step-count submitter):
credential validation, time-based step-range generation, identifier
desensitization, submission response handling, the per-account runner and
the multi-account orchestration, together with the properties checked
against them.  Python side effects (HTTP, random sampling, clock) are
injected as explicit function arguments; Python floats are embedded as
exact rationals.
-/

namespace Mimotion

/-- Characters allowed in the local part of the email regex
`[a-zA-Z0-9._%+-]`. -/
def localChar (c : Char) : Bool :=
  c.isAlpha || c.isDigit || c == '.' || c == '_' || c == '%' || c == '+' || c == '-'

/-- Characters allowed in the domain part of the email regex `[a-zA-Z0-9.-]`. -/
def domainChar (c : Char) : Bool :=
  c.isAlpha || c.isDigit || c == '.' || c == '-'

/-- The phone regex of validate_credentials, `^1[3-9]\d{9}$`: a leading
digit 1, a second digit in 3..9, then nine more digits (the Python `\d`
is embedded as an ASCII digit; all inputs of interest are ASCII). -/
def phone_match (s : String) : Bool :=
  match s.toList with
  | '1' :: c :: rest =>
      decide ('3' ≤ c) && decide (c ≤ '9') && (rest.length == 9) && rest.all Char.isDigit
  | _ => false

/-- One backtracking split of the email-regex tail `[a-zA-Z0-9.-]+\.[a-zA-Z]{2,}$`:
the dot at position i separates a nonempty domain from a TLD of length ≥ 2. -/
def tailSplitAt (cs : List Char) (i : Nat) : Bool :=
  decide (0 < i) && (cs.take i).all domainChar && (cs.getD i ' ' == '.')
    && (cs.drop (i + 1)).all Char.isAlpha && decide (2 ≤ (cs.drop (i + 1)).length)

/-- The email-regex tail `[a-zA-Z0-9.-]+\.[a-zA-Z]{2,}$` matches cs at some
split position. -/
def tail_match (cs : List Char) : Bool :=
  (List.range cs.length).any (tailSplitAt cs)

/-- The email regex of validate_credentials,
`^[a-zA-Z0-9._%+-]+@[a-zA-Z0-9.-]+\.[a-zA-Z]{2,}$`.  Neither character
class contains the at sign, so a match splits the string at its unique
at sign. -/
def email_match (s : String) : Bool :=
  let cs := s.toList
  let i := cs.indexOf '@'
  decide (0 < i) && decide (i < cs.length) && (cs.take i).all localChar
    && !((cs.drop (i + 1)).contains '@') && tail_match (cs.drop (i + 1))

/-- StepSubmitter.validate_credentials from src/main.py: empty-field check,
then whitespace-in-password check, then phone-or-email format check. -/
def validate_credentials (username password : String) : Bool × String :=
  if username == "" || password == "" then (false, "账号或密码不能为空")
  else if password.toList.contains ' ' then (false, "密码不能包含空格")
  else if !(phone_match username || email_match username) then
    (false, "账号格式错误（需为手机号或邮箱）")
  else (true, "验证通过")

/-- Python str.strip(): drop whitespace from both ends of the character
list. -/
def stripChars (cs : List Char) : List Char :=
  ((cs.dropWhile Char.isWhitespace).reverse.dropWhile Char.isWhitespace).reverse

/-- desensitize_user_name from src/main.py.  The Python slices `s[:ln]` and
`s[-ln:]` (with ln ≥ 1) become take and drop on the character list; Nat
subtraction gives the same clipping as Python negative-index slicing. -/
def desensitize_user_name (user : String) : String :=
  let s := stripChars user.toList
  let n := s.length
  if n ≤ 8 then
    let ln := max (n / 3) 1
    String.mk (s.take ln) ++ "***" ++ String.mk (s.drop (n - ln))
  else
    String.mk (s.take 3) ++ "****" ++ String.mk (s.drop (n - 4))

/-- The STEP_RANGES table of get_min_max_by_time: anchor hour, min steps,
max steps, in source order. -/
def STEP_RANGES : List (Int × Nat × Nat) :=
  [(8, 6000, 10000), (12, 8000, 14000), (16, 10000, 18000),
   (20, 12000, 22000), (22, 15000, 24000)]

/-- The closest-anchor scan of get_min_max_by_time: the accumulator holds
(closest_hour, min_diff); none plays the role of the initial infinite
min_diff, and only a strictly smaller difference replaces the current
best, so the first anchor in table order wins ties. -/
def findClosest (cur : Int) (keys : List Int) : Option (Int × Nat) :=
  keys.foldl
    (fun acc h =>
      match acc with
      | none => some (h, (cur - h).natAbs)
      | some (ch, md) =>
          if (cur - h).natAbs < md then some (h, (cur - h).natAbs) else some (ch, md))
    none

/-- Dictionary lookup STEP_RANGES[h], as find? on the association list. -/
def lookupRange (h : Int) : Option (Nat × Nat) :=
  (STEP_RANGES.find? (fun e => e.1 == h)).map (fun e => e.2)

/-- time_rate from get_min_max_by_time; Python float arithmetic is embedded
as exact rational arithmetic. -/
def time_rate (hour minute : Int) : ℚ :=
  if 22 ≤ hour then 1
  else if hour < 0 then 0
  else min (((hour * 60 + minute : Int) : ℚ) / (22 * 60)) 1

/-- Python int() truncation toward zero on a rational. -/
def truncInt (q : ℚ) : Int :=
  if 0 ≤ q then ⌊q⌋ else -⌊-q⌋

/-- The anchor hours of STEP_RANGES, in table order. -/
def anchorKeys : List Int :=
  STEP_RANGES.map (fun e => e.1)

/-- The middle of get_min_max_by_time: the closest-anchor scan, the
2-hour proximity test with the dictionary membership test, the random
draw within the chosen range, and the 29889/35000 defaults.  Returns
(steps, max_step). -/
def steps_and_max (randint : Nat → Nat → Nat) (hour : Int) : Nat × Nat :=
  match findClosest hour anchorKeys with
  | some (ch, md) =>
      if md ≤ 2 then
        match lookupRange ch with
        | some (mn, mx) => (randint mn mx, mx)
        | none => (29889, 35000)
      else (29889, 35000)
  | none => (29889, 35000)

/-- get_min_max_by_time from src/main.py, with the random.randint source
injected as a function argument.  Returns (current_min, current_max),
each the max of the steps_and_max component and its time_rate-scaled
truncation. -/
def get_min_max_by_time (randint : Nat → Nat → Nat) (hour minute : Int) : Nat × Nat :=
  let rate := time_rate hour minute
  let sm := steps_and_max randint hour
  (max sm.1 (Int.toNat (truncInt (rate * sm.1))),
   max sm.2 (Int.toNat (truncInt (rate * sm.2))))

/-- The per-account step draw of run_single_account:
steps = random.randint(min_step, max_step) on the range returned by
get_min_max_by_time. -/
def draw_steps (randint : Nat → Nat → Nat) (hour minute : Int) : Nat :=
  let mm := get_min_max_by_time randint hour minute
  randint mm.1 mm.2

/-- The contract of random.randint a b: the draw lies in the inclusive
range [a, b]. -/
def RandOK (randint : Nat → Nat → Nat) : Prop :=
  ∀ a b, a ≤ b → a ≤ randint a b ∧ randint a b ≤ b

example : findClosest 10 (STEP_RANGES.map (fun e => e.1)) = some (8, 2) := by decide
example : findClosest 0 (STEP_RANGES.map (fun e => e.1)) = some (8, 8) := by decide
example : get_min_max_by_time (fun a _ => a) 0 0 = (29889, 35000) := by
  norm_num [get_min_max_by_time, steps_and_max, anchorKeys, findClosest, STEP_RANGES, lookupRange, time_rate, truncInt]
example : get_min_max_by_time (fun _ b => b) 0 0 = (29889, 35000) := by
  norm_num [get_min_max_by_time, steps_and_max, anchorKeys, findClosest, STEP_RANGES, lookupRange, time_rate, truncInt]
example : get_min_max_by_time (fun a _ => a) 12 30 = (8000, 14000) := by
  norm_num [get_min_max_by_time, steps_and_max, anchorKeys, findClosest, STEP_RANGES, lookupRange, time_rate, truncInt]
example : get_min_max_by_time (fun _ b => b) 23 59 = (24000, 24000) := by
  norm_num [get_min_max_by_time, steps_and_max, anchorKeys, findClosest, STEP_RANGES, lookupRange, time_rate, truncInt]

/-- The decoded JSON body of the third-party API, as submit reads it:
result.get("code") and result.get("data"). -/
structure ApiResp where
  code : Option Int
  data : Option String
  deriving DecidableEq

/-- The form fields posted by submit: phone, pwd, num. -/
structure PostData where
  phone : String
  pwd : String
  num : Nat
  deriving DecidableEq

/-- The transport-level result of the POST in submit, as the code observes
it: a raise from the session or raise_for_status (RequestException), a 2xx
response whose body parsed (some) or raised JSONDecodeError (none) with its
raw text, or any other exception. -/
inductive NetResult where
  | httpError (e : String)
  | ok (parsed : Option ApiResp) (text : String)
  | exn (e : String)
  deriving DecidableEq

/-- Python substring test: does pat occur contiguously in cs? -/
def infixOfCh (pat : List Char) : List Char → Bool
  | [] => pat.isEmpty
  | c :: rest => pat.isPrefixOf (c :: rest) || infixOfCh pat rest

/-- Python `pat in s` on strings. -/
def strContains (s pat : String) : Bool :=
  infixOfCh pat.toList s.toList

/-- The response-processing part of StepSubmitter.submit (after the POST):
HTTP/transport errors, an unparsable body, the code==200 success case, and
the rejection cases including the too-frequent special case. -/
def handle_response (n : NetResult) (steps : Nat) : Bool × String :=
  match n with
  | .httpError e => (false, "网络请求错误：" ++ e)
  | .exn e => (false, "提交逻辑异常：" ++ e)
  | .ok none text => (false, "接口响应格式错误：" ++ String.mk (text.toList.take 100))
  | .ok (some r) _ =>
      if r.code == some 200 then
        (true, "提交成功！步数：" ++ toString steps ++ "，接口反馈：" ++ r.data.getD "success")
      else
        let error_msg := r.data.getD "未知错误"
        if strContains error_msg "频繁" then
          (false, "提交过于频繁，请间隔1小时后重试（" ++ error_msg ++ "）")
        else (false, "接口拒绝：" ++ error_msg)

/-- StepSubmitter.submit from src/main.py, with the HTTP transport injected
as a function argument: validate credentials first and short-circuit on
failure, otherwise post once and process the response. -/
def submit (net : PostData → NetResult) (username password : String)
    (steps : Nat) : Bool × String :=
  let v := validate_credentials username password
  if !v.1 then (false, "格式验证失败：" ++ v.2)
  else handle_response (net ⟨username, password, steps⟩) steps

/-- The number of HTTP submission attempts one submit call performs: the
body has a single session.post call site, reached exactly when validation
passes, and no loop around it. -/
def submit_attempts (username password : String) : Nat :=
  if !(validate_credentials username password).1 then 0 else 1

/-- The result dict built by run_single_account: user (desensitized),
success, msg. -/
structure AccountResult where
  user : String
  success : Bool
  msg : String
  deriving DecidableEq

/-- run_single_account from src/main.py (the total/idx parameters feed only
the log prefix and are omitted).  The try block either runs to completion
or raises; a raise is injected as exc = some (message, traceback), which
the except branch turns into a failure result with the traceback truncated
to 200 characters — the function is total. -/
def run_single_account (randint : Nat → Nat → Nat) (net : PostData → NetResult)
    (hour minute : Int) (exc : Option (String × String))
    (username password : String) : AccountResult :=
  let user_desensitized := desensitize_user_name username
  match exc with
  | some (e, tb) =>
      ⟨user_desensitized, false, "处理异常：" ++ e ++ "\n" ++ String.mk (tb.toList.take 200)⟩
  | none =>
      let steps := draw_steps randint hour minute
      let sm := submit net username password steps
      ⟨user_desensitized, sm.1, sm.2⟩

/-- Python str.split(sep) with a one-character separator; on the empty
string it yields one empty field. -/
def splitOnCh (sep : Char) : List Char → List (List Char)
  | [] => [[]]
  | c :: rest =>
      let r := splitOnCh sep rest
      if c == sep then [] :: r
      else
        match r with
        | [] => [[c]]
        | h :: t => (c :: h) :: t

/-- The outcome of one execute() call: a configuration error (execute calls
exit(1) directly) or a completed run with the collected results (after
which __main__ reaches exit(0)). -/
inductive ExecOutcome where
  | configError (msg : String)
  | completed (results : List AccountResult)
  deriving DecidableEq

/-- The process exit code each execute() outcome leads to. -/
def exitCode : ExecOutcome → Nat
  | .configError _ => 1
  | .completed _ => 0

/-- The per-account work list of execute: enumerate(zip(users, passwords)). -/
def accountPairs (cfgUSER cfgPWD : String) : List (Nat × String × String) :=
  let users := (splitOnCh '#' cfgUSER.toList).map String.mk
  let passwords := (splitOnCh '#' cfgPWD.toList).map String.mk
  (users.zip passwords).enum

/-- execute from src/main.py, sequential mode: split USER and PWD on the
separator, reject mismatched counts, reject an empty account list, then
run the accounts in input order (the inter-account sleep has no effect on
the results).  Per-account exceptions are injected by index. -/
def executeSeq (cfgUSER cfgPWD : String)
    (randint : Nat → Nat → Nat) (net : PostData → NetResult)
    (hour minute : Int) (exc : Nat → Option (String × String)) : ExecOutcome :=
  let users := (splitOnCh '#' cfgUSER.toList).map String.mk
  let passwords := (splitOnCh '#' cfgPWD.toList).map String.mk
  if users.length != passwords.length then
    .configError ("账号数[" ++ toString users.length ++ "]与密码数["
      ++ toString passwords.length ++ "]不匹配！请检查CONFIG")
  else if users.length == 0 then
    .configError "未配置任何账号！请在CONFIG中设置USER和PWD"
  else
    .completed ((accountPairs cfgUSER cfgPWD).map
      (fun p => run_single_account randint net hour minute (exc p.1) p.2.1 p.2.2))

/-- execute from src/main.py, concurrent mode: the same per-account tasks
dispatched to the pool, collected in as_completed order — an arbitrary
permutation `order` of the task indices. -/
def executeConc (cfgUSER cfgPWD : String)
    (randint : Nat → Nat → Nat) (net : PostData → NetResult)
    (hour minute : Int) (exc : Nat → Option (String × String))
    (order : List Nat) : ExecOutcome :=
  let users := (splitOnCh '#' cfgUSER.toList).map String.mk
  let passwords := (splitOnCh '#' cfgPWD.toList).map String.mk
  if users.length != passwords.length then
    .configError ("账号数[" ++ toString users.length ++ "]与密码数["
      ++ toString passwords.length ++ "]不匹配！请检查CONFIG")
  else if users.length == 0 then
    .configError "未配置任何账号！请在CONFIG中设置USER和PWD"
  else
    let seqResults := (accountPairs cfgUSER cfgPWD).map
      (fun p => run_single_account randint net hour minute (exc p.1) p.2.1 p.2.2)
    .completed (order.map (fun i => seqResults.getD i ⟨"", false, ""⟩))

/-- Modelled from the spec: the three-way AttemptOutcome classification
(Confirmed / Suspicious / Failed) of the data model; the file under src/
encodes outcomes only as a (success, message) pair. -/
inductive AttemptOutcome where
  | confirmed (payload : String)
  | suspicious (decoded : Option ApiResp) (body : String)
  | failed (msg : String)
  deriving DecidableEq

/-- Modelled from the spec: the Suspicious reclassification predicate of
the RetryingSubmitter — a recognized status-code field equal to the known
success value, or a recognizable success token in the body text. -/
def suspicious_success (decoded : Option ApiResp) (body : String) : Bool :=
  (match decoded with
   | some r => r.code == some 200
   | none => false) || strContains body "success"

/-- Modelled from the spec: the observable result of the RetryingSubmitter
(absent from src/main.py) — success flag, number of attempts performed,
the backoff sleeps performed in order, and the last outcome. -/
structure RetryResult where
  success : Bool
  attempts : Nat
  sleeps : List Nat
  last : AttemptOutcome
  deriving DecidableEq

/-- Modelled from the spec: the RetryingSubmitter state machine, absent
from src/main.py (whose submit performs a single attempt).  attempt is the
0-based attempt index, remaining the retries still allowed; a Failed or
not-positively-reclassified Suspicious outcome with retries remaining
sleeps backoffBase ^ (attempt + 1) — attempt numbers starting at 1 — and
retries; Confirmed terminates at once. -/
def retryLoop (client : Nat → AttemptOutcome) (backoffBase : Nat) :
    Nat → Nat → List Nat → RetryResult
  | attempt, remaining, sleeps =>
    match client attempt, remaining with
    | .confirmed p, _ => ⟨true, attempt + 1, sleeps, .confirmed p⟩
    | .suspicious d b, rem =>
        if suspicious_success d b then ⟨true, attempt + 1, sleeps, .suspicious d b⟩
        else
          match rem with
          | 0 => ⟨false, attempt + 1, sleeps, .suspicious d b⟩
          | r + 1 =>
              retryLoop client backoffBase (attempt + 1) r
                (sleeps ++ [backoffBase ^ (attempt + 1)])
    | .failed m, 0 => ⟨false, attempt + 1, sleeps, .failed m⟩
    | .failed _, r + 1 =>
        retryLoop client backoffBase (attempt + 1) r
          (sleeps ++ [backoffBase ^ (attempt + 1)])

/-- Modelled from the spec: submitWithRetry — attempts 0..maxRetries
inclusive, starting with no sleep performed. -/
def submitWithRetry (client : Nat → AttemptOutcome) (maxRetries backoffBase : Nat) :
    RetryResult :=
  retryLoop client backoffBase 0 maxRetries []

/-- Modelled from the spec: submitOnce with the dry-run mode, absent from
src/main.py (DEFAULT_CONFIG has no such key and submit always posts).
Returns the outcome and the number of network calls performed; when
dry-run is enabled no network call is made and the call returns Confirmed
at once with a synthetic marker payload. -/
def submitOnce (dryRun : Bool) (net : PostData → NetResult)
    (username password : String) (steps : Nat) : AttemptOutcome × Nat :=
  if dryRun then (.confirmed "dry-run", 0)
  else
    let v := validate_credentials username password
    if !v.1 then (.failed ("格式验证失败：" ++ v.2), 0)
    else
      match net ⟨username, password, steps⟩ with
      | .httpError e => (.failed ("网络请求错误：" ++ e), 1)
      | .exn e => (.failed ("提交逻辑异常：" ++ e), 1)
      | .ok none text => (.suspicious none text, 1)
      | .ok (some r) text =>
          if r.code == some 200 then (.confirmed text, 1)
          else (.failed ("接口拒绝：" ++ r.data.getD "未知错误"), 1)

/-- The spec wording of the anchor chosen by the generator: an anchor hour
of the table, nearest to the current hour by absolute distance, with ties
resolved to the earliest-defined anchor. -/
def IsNearestAnchor (hour a : Int) : Prop :=
  a ∈ anchorKeys ∧
  (∀ b ∈ anchorKeys, (hour - a).natAbs ≤ (hour - b).natAbs) ∧
  (∀ b ∈ anchorKeys, (hour - b).natAbs = (hour - a).natAbs →
    anchorKeys.indexOf a ≤ anchorKeys.indexOf b)

lemma time_rate_le_one (hour minute : Int) : time_rate hour minute ≤ 1 := by
  unfold time_rate
  split
  · exact le_refl 1
  · split
    · norm_num
    · exact min_le_right _ _

lemma truncInt_le_self (q : ℚ) (n : Nat) (hq : q ≤ 1) :
    Int.toNat (truncInt (q * n)) ≤ n := by
  unfold truncInt
  split
  · rename_i h
    have hmul : (q * n : ℚ) ≤ (n : ℚ) := by
      have hn : (0 : ℚ) ≤ (n : ℚ) := Nat.cast_nonneg n
      calc (q * n : ℚ) ≤ 1 * n := mul_le_mul_of_nonneg_right hq hn
        _ = (n : ℚ) := one_mul _
    have hfl : ⌊(q * n : ℚ)⌋ ≤ (n : Int) := by
      have := Int.floor_le_floor hmul
      simpa using this
    exact Int.toNat_le.mpr hfl
  · rename_i h
    have hneg : (q * n : ℚ) < 0 := lt_of_not_ge h
    have h1 : (0 : ℚ) ≤ -(q * n) := by linarith
    have h2 : (0 : Int) ≤ ⌊-(q * n : ℚ)⌋ := Int.floor_nonneg.mpr h1
    have h3 : -⌊-(q * n : ℚ)⌋ ≤ 0 := by omega
    calc Int.toNat (-⌊-(q * n : ℚ)⌋) = 0 := Int.toNat_of_nonpos h3
      _ ≤ n := Nat.zero_le n

/-- Because time_rate is at most 1, the max in get_min_max_by_time always
resolves to the steps_and_max components. -/
lemma get_min_max_eq_sm (randint : Nat → Nat → Nat) (hour minute : Int) :
    get_min_max_by_time randint hour minute = steps_and_max randint hour := by
  have hrate := time_rate_le_one hour minute
  unfold get_min_max_by_time
  have h1 := truncInt_le_self (time_rate hour minute) (steps_and_max randint hour).1 hrate
  have h2 := truncInt_le_self (time_rate hour minute) (steps_and_max randint hour).2 hrate
  simp only [Nat.max_eq_left h1, Nat.max_eq_left h2]

/-- Every range of the STEP_RANGES table is nonempty and strictly
positive. -/
lemma step_ranges_sound :
    ∀ e ∈ STEP_RANGES, 0 < e.2.1 ∧ e.2.1 ≤ e.2.2 := by decide

/-- A successful STEP_RANGES lookup yields one of the table's ranges, so a
strictly positive nonempty one. -/
lemma lookupRange_sound (ch : Int) (mn mx : Nat)
    (hl : lookupRange ch = some (mn, mx)) : 0 < mn ∧ mn ≤ mx := by
  unfold lookupRange at hl
  rcases Option.map_eq_some'.mp hl with ⟨e, hfind, he⟩
  have hmem := List.mem_of_find?_eq_some hfind
  have hs := step_ranges_sound e hmem
  rw [he] at hs
  simpa using hs

/-- steps_and_max either falls back to the default pair (29889, 35000) or
draws within a range of the table and reports that range's max. -/
lemma steps_and_max_cases (randint : Nat → Nat → Nat) (hour : Int) :
    steps_and_max randint hour = (29889, 35000) ∨
    ∃ mn mx, 0 < mn ∧ mn ≤ mx ∧ steps_and_max randint hour = (randint mn mx, mx) := by
  unfold steps_and_max
  cases hf : findClosest hour anchorKeys with
  | none => exact Or.inl rfl
  | some cm =>
      obtain ⟨ch, md⟩ := cm
      by_cases hmd : md ≤ 2
      · cases hl : lookupRange ch with
        | none => simp [hl]
        | some r =>
            obtain ⟨mn, mx⟩ := r
            obtain ⟨h1, h2⟩ := lookupRange_sound ch mn mx hl
            exact Or.inr ⟨mn, mx, h1, h2, by simp [hl, hmd]⟩
      · simp [hmd]

instance (hour a : Int) : Decidable (IsNearestAnchor hour a) := by
  unfold IsNearestAnchor
  infer_instance

/-- For every hour of the day the closest-anchor scan returns the anchor
that the spec describes: nearest by absolute distance, earliest-defined on
ties, together with its distance. -/
lemma findClosest_nearest (h : Nat) (hh : h < 24) :
    ∃ ch md, findClosest (h : Int) anchorKeys = some (ch, md) ∧
      md = ((h : Int) - ch).natAbs ∧ IsNearestAnchor (h : Int) ch := by
  interval_cases h <;> exact ⟨_, _, rfl, by decide, by decide⟩

/-- Claim C2, counterexample: when no anchor is within the reasonable
distance (hour 0: the nearest anchor 8 is 8 hours away), the generated
value is not one fixed default constant — two permitted draws of the
injected random source yield 29889 and 35000 respectively, because the
code uses 29889 only as the lower bound of the final range whose upper
bound stays at 35000. -/
theorem value_generator_fallback_not_constant :
    RandOK (fun a _ => a) ∧ RandOK (fun _ b => b) ∧
    IsNearestAnchor 0 8 ∧ 2 < ((0 : Int) - 8).natAbs ∧
    draw_steps (fun a _ => a) 0 0 = 29889 ∧
    draw_steps (fun _ b => b) 0 0 = 35000 ∧ (29889 : Nat) ≠ 35000 := by
  refine ⟨fun a b h => ⟨le_rfl, h⟩, fun a b h => ⟨h, le_rfl⟩, by decide, by decide, ?_, ?_, by decide⟩
  · norm_num [draw_steps, get_min_max_by_time, steps_and_max, anchorKeys, findClosest,
      STEP_RANGES, lookupRange, time_rate, truncInt]
  · norm_num [draw_steps, get_min_max_by_time, steps_and_max, anchorKeys, findClosest,
      STEP_RANGES, lookupRange, time_rate, truncInt]

/-- Claim C2 (amended): for every hour 0-23 the generated value lies within
the [min,max] bounds of the anchor nearest to the current hour by absolute
distance (ties to the earliest-defined anchor) whenever that anchor is
within distance 2; when no anchor is that close, the value falls in the
default range [29889, 35000] — 29889 the fixed default minimum, 35000 the
fixed default maximum — rather than being one fixed constant, and the
generator never fails. -/
theorem value_generator_anchor_bounds (r : Nat → Nat → Nat) (hr : RandOK r)
    (hour minute : Int) (h0 : 0 ≤ hour) (h23 : hour ≤ 23) :
    ∃ ch md, findClosest hour anchorKeys = some (ch, md) ∧
      IsNearestAnchor hour ch ∧ md = (hour - ch).natAbs ∧
      (∀ mn mx, md ≤ 2 → lookupRange ch = some (mn, mx) →
        mn ≤ draw_steps r hour minute ∧ draw_steps r hour minute ≤ mx) ∧
      (2 < md → 29889 ≤ draw_steps r hour minute ∧ draw_steps r hour minute ≤ 35000) := by
  lift hour to ℕ using h0 with h
  have hlt : h < 24 := by omega
  obtain ⟨ch, md, hf, hmd, hna⟩ := findClosest_nearest h hlt
  refine ⟨ch, md, hf, hna, hmd, ?_, ?_⟩
  · intro mn mx hle hl
    have hsm : steps_and_max r (h : Int) = (r mn mx, mx) := by
      unfold steps_and_max
      rw [hf]
      simp [hle, hl]
    have hdraw : draw_steps r (h : Int) minute = r (r mn mx) mx := by
      unfold draw_steps
      rw [get_min_max_eq_sm, hsm]
    have hmm := lookupRange_sound ch mn mx hl
    have hA := hr mn mx hmm.2
    have hB := hr (r mn mx) mx hA.2
    rw [hdraw]
    exact ⟨le_trans hA.1 hB.1, hB.2⟩
  · intro hgt
    have hsm : steps_and_max r (h : Int) = (29889, 35000) := by
      unfold steps_and_max
      rw [hf]
      simp [show ¬ md ≤ 2 by omega]
    have hdraw : draw_steps r (h : Int) minute = r 29889 35000 := by
      unfold draw_steps
      rw [get_min_max_eq_sm, hsm]
    rw [hdraw]
    exact hr 29889 35000 (by norm_num)

/-- Witness for the amended C2 at hour 10 (the 8-versus-12 tie) with the
lower-bound random source. -/
theorem value_generator_anchor_bounds_witness :
    ∃ ch md, findClosest 10 anchorKeys = some (ch, md) ∧
      IsNearestAnchor 10 ch ∧ md = ((10 : Int) - ch).natAbs ∧
      (∀ mn mx, md ≤ 2 → lookupRange ch = some (mn, mx) →
        mn ≤ draw_steps (fun a _ => a) 10 30 ∧ draw_steps (fun a _ => a) 10 30 ≤ mx) ∧
      (2 < md → 29889 ≤ draw_steps (fun a _ => a) 10 30 ∧
        draw_steps (fun a _ => a) 10 30 ≤ 35000) :=
  value_generator_anchor_bounds (fun a _ => a) (fun a b h => ⟨le_rfl, h⟩) 10 30
    (by norm_num) (by norm_num)

/-- Claim C10: for every hour 0-23 and minute 0-59 the computed step range
(current_min, current_max) satisfies 0 < current_min ≤ current_max, so the
per-account uniform draw over the inclusive range is well-defined and
never raises. -/
theorem step_range_wellformed (r : Nat → Nat → Nat) (hr : RandOK r)
    (hour minute : Int) (h0 : 0 ≤ hour) (h23 : hour ≤ 23)
    (m0 : 0 ≤ minute) (m59 : minute ≤ 59) :
    0 < (get_min_max_by_time r hour minute).1 ∧
    (get_min_max_by_time r hour minute).1 ≤ (get_min_max_by_time r hour minute).2 := by
  rw [get_min_max_eq_sm]
  rcases steps_and_max_cases r hour with hd | ⟨mn, mx, h1, h2, hsm⟩
  · rw [hd]
    exact ⟨by norm_num, by norm_num⟩
  · rw [hsm]
    have hA := hr mn mx h2
    exact ⟨lt_of_lt_of_le h1 hA.1, hA.2⟩

/-- Witness for C10 at 12:30 with the lower-bound random source. -/
theorem step_range_wellformed_witness :
    0 < (get_min_max_by_time (fun a _ => a) 12 30).1 ∧
    (get_min_max_by_time (fun a _ => a) 12 30).1 ≤
      (get_min_max_by_time (fun a _ => a) 12 30).2 :=
  step_range_wellformed (fun a _ => a) (fun a b h => ⟨le_rfl, h⟩) 12 30
    (by norm_num) (by norm_num) (by norm_num) (by norm_num)

example :
    submitWithRetry (fun _ => .failed "x") 3 5 =
      ⟨false, 4, [5, 25, 125], .failed "x"⟩ := by decide
example :
    submitWithRetry (fun _ => .confirmed "ok") 3 5 = ⟨true, 1, [], .confirmed "ok"⟩ := by
  decide

/-- Claim C1 (on the spec-modelled RetryingSubmitter, absent from
src/main.py): when every attempt yields a Failed outcome and maxRetries
is 3, the retry loop performs exactly 4 attempts (0..3 inclusive), sleeps
backoffBase^1, backoffBase^2, backoffBase^3 between consecutive attempts,
and terminates with success = false. -/
theorem retry_all_failed_four_attempts (client : Nat → AttemptOutcome)
    (backoffBase : Nat) (hc : ∀ n, ∃ m, client n = .failed m) :
    (submitWithRetry client 3 backoffBase).attempts = 4 ∧
    (submitWithRetry client 3 backoffBase).success = false ∧
    (submitWithRetry client 3 backoffBase).sleeps =
      [backoffBase ^ 1, backoffBase ^ 2, backoffBase ^ 3] := by
  obtain ⟨m0, h0⟩ := hc 0
  obtain ⟨m1, h1⟩ := hc 1
  obtain ⟨m2, h2⟩ := hc 2
  obtain ⟨m3, h3⟩ := hc 3
  simp [submitWithRetry, retryLoop, h0, h1, h2, h3]

/-- Witness for C1: the constant Failed client with backoff base 5. -/
theorem retry_all_failed_four_attempts_witness :
    (submitWithRetry (fun _ => .failed "x") 3 5).attempts = 4 ∧
    (submitWithRetry (fun _ => .failed "x") 3 5).success = false ∧
    (submitWithRetry (fun _ => .failed "x") 3 5).sleeps = [5 ^ 1, 5 ^ 2, 5 ^ 3] :=
  retry_all_failed_four_attempts (fun _ => .failed "x") 5 (fun _ => ⟨"x", rfl⟩)

/-- Claim C7 (on the spec-modelled dry-run mode, absent from src/main.py):
with dry-run enabled a single submission call performs zero network calls
and returns Confirmed at once with the synthetic marker payload, for every
transport, credential pair and value. -/
theorem dry_run_no_network (net : PostData → NetResult) (u p : String) (steps : Nat) :
    submitOnce true net u p steps = (.confirmed "dry-run", 0) := rfl

/-- Claim C8: when credential validation fails, submit returns a failure
carrying the validation error in its message, and the result is
independent of the injected transport — the network is never consulted. -/
theorem validation_short_circuit (net net2 : PostData → NetResult)
    (u p : String) (steps : Nat)
    (hval : (validate_credentials u p).1 = false) :
    submit net u p steps = (false, "格式验证失败：" ++ (validate_credentials u p).2) ∧
    submit net u p steps = submit net2 u p steps := by
  constructor
  · simp [submit, hval]
  · simp [submit, hval]

/-- Witness for C8: the identifier "abc" fails validation and the submit
result ignores the transport. -/
theorem validation_short_circuit_witness :
    submit (fun _ => .httpError "a") "abc" "pw" 100 =
      (false, "格式验证失败：" ++ (validate_credentials "abc" "pw").2) ∧
    submit (fun _ => .httpError "a") "abc" "pw" 100 =
      submit (fun _ => .ok (some ⟨some 200, some "ok"⟩) "t") "abc" "pw" 100 :=
  validation_short_circuit _ _ "abc" "pw" 100 (by decide)

/-- The phone pattern exactly as claim C5 words it: leading digit 3-9,
total 11 digits. -/
def claimPhonePattern (s : String) : Bool :=
  match s.toList with
  | c :: rest =>
      decide ('3' ≤ c) && decide (c ≤ '9') && c.isDigit &&
        (rest.length == 10) && rest.all Char.isDigit
  | [] => false

/-- Claim C5, counterexample, refuting two clauses of the claim at
concrete inputs.  First, "31234567890" matches the claim's phone pattern
(leading digit 3, total 11 digits) yet the code rejects it with the
identifier-format error, because the code's phone regex `^1[3-9]\d{9}$`
requires a leading 1 with the 3-9 digit in second position.  Second, the
secret "p\tw" contains a whitespace character (the tab) yet validation
passes, because the code tests only for the space character `' ' in
password` — so the secret-format rule does not fire on every whitespace
character. -/
theorem validator_pattern_whitespace_counterexample :
    claimPhonePattern "31234567890" = true ∧
    phone_match "31234567890" = false ∧
    email_match "31234567890" = false ∧
    validate_credentials "31234567890" "pw" =
      (false, "账号格式错误（需为手机号或邮箱）") ∧
    Char.isWhitespace '\t' = true ∧
    validate_credentials "13800138000" "p\tw" = (true, "验证通过") := by decide

/-- Claim C5 (amended): the validator checks its rules in order with the
first failure winning — the empty-field error if identifier or secret is
empty, then the secret-format error if the secret contains a space (the
only whitespace character the code tests for: a secret containing other
whitespace such as a tab passes this rule), then the identifier-format
error unless the identifier matches the code's phone pattern (leading
digit 1, second digit 3-9, total 11 digits) or the email pattern (TLD
length ≥ 2); it rejects "abc" and accepts "13800138000" and
"user@example.com". -/
theorem validator_rules_in_order (u p : String) :
    ((u = "" ∨ p = "") → validate_credentials u p = (false, "账号或密码不能为空")) ∧
    (u ≠ "" → p ≠ "" → ' ' ∈ p.toList →
      validate_credentials u p = (false, "密码不能包含空格")) ∧
    (u ≠ "" → p ≠ "" → ' ' ∉ p.toList →
      phone_match u = false → email_match u = false →
      validate_credentials u p = (false, "账号格式错误（需为手机号或邮箱）")) ∧
    (u ≠ "" → p ≠ "" → ' ' ∉ p.toList →
      (phone_match u = true ∨ email_match u = true) →
      validate_credentials u p = (true, "验证通过")) ∧
    validate_credentials "abc" "pw" = (false, "账号格式错误（需为手机号或邮箱）") ∧
    validate_credentials "13800138000" "pw" = (true, "验证通过") ∧
    validate_credentials "user@example.com" "pw" = (true, "验证通过") ∧
    validate_credentials "13800138000" "p\tw" = (true, "验证通过") := by
  refine ⟨?_, ?_, ?_, ?_, by decide, by decide, by decide, by decide⟩
  · rintro (rfl | rfl) <;> simp [validate_credentials]
  · intro hu hp hsp
    simp only [String.toList] at hsp
    simp [validate_credentials, hu, hp, hsp]
  · intro hu hp hsp hph hem
    simp only [String.toList] at hsp
    simp [validate_credentials, hu, hp, hsp, hph, hem]
  · intro hu hp hsp hor
    simp only [String.toList] at hsp
    rcases hor with hph | hem
    · simp [validate_credentials, hu, hp, hsp, hph]
    · simp [validate_credentials, hu, hp, hsp, hem]

/-- Witness for the amended C5: a password with a space is caught by the
second rule. -/
theorem validator_rules_in_order_witness :
    validate_credentials "13800138000" "p w" = (false, "密码不能包含空格") :=
  (validator_rules_in_order "13800138000" "p w").2.1 (by decide) (by decide) (by decide)

/-- Claim C6, counterexample: a 2xx transport success whose body fails to
parse comes back as success = false with the response-format error — the
same failure classification as a transport error — not as a distinct
Suspicious outcome; the code's outcome type has no such case. -/
theorem unparsable_body_counterexample :
    submit (fun _ => .ok none "not-json") "13800138000" "pw" 8000 =
      (false, "接口响应格式错误：not-json") ∧
    (submit (fun _ => .ok none "not-json") "13800138000" "pw" 8000).1 =
      (submit (fun _ => .httpError "timeout") "13800138000" "pw" 8000).1 := by
  constructor
  · decide
  · decide

/-- Claim C6 (amended): a 2xx response whose body fails to parse yields a
failure outcome (success = false) whose message is the response-format
error with the raw body truncated to 100 characters; the code folds this
case into failure rather than a separate Suspicious classification. -/
theorem unparsable_body_failed (net : PostData → NetResult) (u p text : String)
    (steps : Nat) (hval : (validate_credentials u p).1 = true)
    (hnet : ∀ d, net d = .ok none text) :
    submit net u p steps =
      (false, "接口响应格式错误：" ++ String.mk (text.toList.take 100)) := by
  simp [submit, hval, hnet, handle_response]

/-- Witness for the amended C6. -/
theorem unparsable_body_failed_witness :
    submit (fun _ => .ok none "bad") "user@example.com" "pw" 5 =
      (false, "接口响应格式错误：" ++ String.mk ("bad".toList.take 100)) :=
  unparsable_body_failed _ "user@example.com" "pw" "bad" 5 (by decide) (fun _ => rfl)

/-- The number of characters of the stripped identifier that the redacted
form preserves in the clear, mirroring the two branches of
desensitize_user_name. -/
def keptChars (user : String) : Nat :=
  let s := stripChars user.toList
  let n := s.length
  if n ≤ 8 then
    let ln := max (n / 3) 1
    (s.take ln).length + (s.drop (n - ln)).length
  else
    (s.take 3).length + (s.drop (n - 4)).length

/-- Claim C9, counterexample: for the two-character identifier "ab" the
redacted form is "a***b" — the preserved leading and trailing characters
together are the whole identifier, so nothing is concealed and the
identifier is revealed in full. -/
theorem desensitize_short_reveals_all :
    desensitize_user_name "ab" = "a***b" ∧
    keptChars "ab" = ("ab".toList).length ∧
    ¬ keptChars "ab" < (stripChars "ab".toList).length := by decide

/-- Claim C9 (amended): for identifiers of stripped length at least 3 the
redacted form preserves only a few leading and trailing characters and
conceals at least one character (shorter identifiers are revealed in
full); and every AccountResult records exactly the redacted form of its
identifier, never the raw identifier. -/
theorem desensitize_conceals (user : String)
    (h3 : 3 ≤ (stripChars user.toList).length) :
    keptChars user < (stripChars user.toList).length ∧
    ∀ r net hour minute exc p,
      (run_single_account r net hour minute exc user p).user =
        desensitize_user_name user := by
  constructor
  · unfold keptChars
    by_cases hc : (stripChars user.toList).length ≤ 8
    · simp only [hc, if_true, List.length_take, List.length_drop]
      omega
    · simp only [hc, if_false, List.length_take, List.length_drop]
      omega
  · intro r net hour minute exc p
    cases exc <;> rfl

/-- Witness for the amended C9. -/
theorem desensitize_conceals_witness :
    keptChars "user@example.com" < (stripChars "user@example.com".toList).length ∧
    ∀ r net hour minute exc p,
      (run_single_account r net hour minute exc "user@example.com" p).user =
        desensitize_user_name "user@example.com" :=
  desensitize_conceals "user@example.com" (by decide)

/-- Python split never yields an empty list: splitting any string, the
empty one included, produces at least one field. -/
lemma splitOnCh_ne_nil (sep : Char) (cs : List Char) : splitOnCh sep cs ≠ [] := by
  induction cs with
  | nil => simp [splitOnCh]
  | cons c t ih =>
      simp only [splitOnCh]
      split
      · simp
      · cases hr : splitOnCh sep t with
        | nil => simp
        | cons h t2 => simp

/-- Claim C4 (code bug): split always yields at least one field, so the
code's zero-account guard (`total_accounts == 0` after splitting) is dead;
with USER = "" and PWD = "" — zero accounts configured — execute completes,
processes one empty account (which merely fails validation), and the
process exits 0 instead of reporting a configuration error with a
non-zero exit code. -/
theorem zero_accounts_guard_dead :
    (∀ cs : List Char, 1 ≤ (splitOnCh '#' cs).length) ∧
    executeSeq "" "" (fun a _ => a) (fun _ => .httpError "e") 12 0 (fun _ => none) =
      .completed [⟨"***", false, "格式验证失败：账号或密码不能为空"⟩] ∧
    exitCode (executeSeq "" "" (fun a _ => a) (fun _ => .httpError "e") 12 0
      (fun _ => none)) = 0 := by
  have hE : executeSeq "" "" (fun a _ => a) (fun _ => .httpError "e") 12 0
      (fun _ => none) =
      .completed [⟨"***", false, "格式验证失败：账号或密码不能为空"⟩] := by
    norm_num [executeSeq, accountPairs, splitOnCh, run_single_account, draw_steps,
      get_min_max_by_time, steps_and_max, anchorKeys, findClosest, STEP_RANGES,
      lookupRange, time_rate, truncInt, submit, validate_credentials,
      desensitize_user_name, stripChars]
    decide
  refine ⟨?_, hE, ?_⟩
  · intro cs
    have := splitOnCh_ne_nil '#' cs
    exact List.length_pos.mpr this
  · rw [hE]
    rfl

/-- One result per index: mapping the default-read over the index range
reproduces the list. -/
lemma map_getD_range {α : Type} (l : List α) (d : α) :
    (List.range l.length).map (fun i => l.getD i d) = l := by
  induction l with
  | nil => simp
  | cons a t ih =>
      simp only [List.length_cons, List.range_succ_eq_map, List.map_cons,
        List.map_map, Function.comp_def, List.getD_cons_zero, List.getD_cons_succ]
      rw [ih]

/-- Claim C3: in both execution modes every configured account yields
exactly one collected AccountResult — the sequential results are exactly
the per-account runner's outputs in input order, the concurrent results
(collected in an arbitrary completion order) are a permutation of them,
one per account — and an exception raised inside the runner's body is
converted into a success = false result: the runner is total, so no
exception propagates to the orchestrator. -/
theorem one_result_per_account (cfgUSER cfgPWD : String)
    (r : Nat → Nat → Nat) (net : PostData → NetResult) (hour minute : Int)
    (exc : Nat → Option (String × String)) (order : List Nat)
    (res resC : List AccountResult)
    (hperm : order.Perm (List.range (accountPairs cfgUSER cfgPWD).length))
    (hseq : executeSeq cfgUSER cfgPWD r net hour minute exc = .completed res)
    (hconc : executeConc cfgUSER cfgPWD r net hour minute exc order = .completed resC) :
    res = (accountPairs cfgUSER cfgPWD).map
        (fun p => run_single_account r net hour minute (exc p.1) p.2.1 p.2.2) ∧
    res.length = (accountPairs cfgUSER cfgPWD).length ∧
    resC.Perm res ∧
    (∀ e tb u p,
      (run_single_account r net hour minute (some (e, tb)) u p).success = false) := by
  unfold executeSeq at hseq
  unfold executeConc at hconc
  dsimp only at hseq hconc
  split_ifs at hseq hconc with h1 h2
  have hres : res = (accountPairs cfgUSER cfgPWD).map
      (fun p => run_single_account r net hour minute (exc p.1) p.2.1 p.2.2) := by
    injection hseq with h
    exact h.symm
  have hresC : resC = order.map
      (fun i => ((accountPairs cfgUSER cfgPWD).map
        (fun p => run_single_account r net hour minute (exc p.1) p.2.1 p.2.2)).getD
          i ⟨"", false, ""⟩) := by
    injection hconc with h
    exact h.symm
  refine ⟨hres, by rw [hres]; simp, ?_, fun e tb u p => rfl⟩
  rw [hresC, hres]
  have hlen : (accountPairs cfgUSER cfgPWD).length =
      ((accountPairs cfgUSER cfgPWD).map
        (fun p => run_single_account r net hour minute (exc p.1) p.2.1 p.2.2)).length := by
    simp
  have hmap := hperm.map
    (fun i => ((accountPairs cfgUSER cfgPWD).map
      (fun p => run_single_account r net hour minute (exc p.1) p.2.1 p.2.2)).getD
        i ⟨"", false, ""⟩)
  rw [hlen] at hmap
  rw [map_getD_range] at hmap
  exact hmap

/-- Witness for C3: two accounts, both raising an injected exception,
collected concurrently in reverse order. -/
theorem one_result_per_account_witness :
    ([⟨"a***a", false, "处理异常：boom\ntb"⟩, ⟨"b***b", false, "处理异常：boom\ntb"⟩]
        : List AccountResult) =
      (accountPairs "a#b" "x#y").map
        (fun p => run_single_account (fun a _ => a) (fun _ => .httpError "e") 12 0
          ((fun _ : Nat => some ("boom", "tb")) p.1) p.2.1 p.2.2) ∧
    ([⟨"a***a", false, "处理异常：boom\ntb"⟩, ⟨"b***b", false, "处理异常：boom\ntb"⟩]
        : List AccountResult).length = (accountPairs "a#b" "x#y").length ∧
    ([⟨"b***b", false, "处理异常：boom\ntb"⟩, ⟨"a***a", false, "处理异常：boom\ntb"⟩]
        : List AccountResult).Perm
      [⟨"a***a", false, "处理异常：boom\ntb"⟩, ⟨"b***b", false, "处理异常：boom\ntb"⟩] ∧
    (∀ e tb u p,
      (run_single_account (fun a _ => a) (fun _ => .httpError "e") 12 0
        (some (e, tb)) u p).success = false) :=
  one_result_per_account "a#b" "x#y" (fun a _ => a) (fun _ => .httpError "e") 12 0
    (fun _ => some ("boom", "tb")) [1, 0] _ _ (by decide) (by decide) (by decide)

example : validate_credentials "13800138000" "pw" = (true, "验证通过") := by decide
example : validate_credentials "user@example.com" "pw" = (true, "验证通过") := by decide
example : validate_credentials "abc" "pw" = (false, "账号格式错误（需为手机号或邮箱）") := by decide
example : validate_credentials "" "pw" = (false, "账号或密码不能为空") := by decide
example : validate_credentials "13800138000" "p w" = (false, "密码不能包含空格") := by decide
example : desensitize_user_name "ab" = "a***b" := by decide
example : desensitize_user_name "13800138000" = "138****8000" := by decide

end Mimotion
